import Mathlib

/-!
Verification of the `Log` repository (files `src/log.hpp`, `src/log.cpp`):
a process-wide singleton logger with level filtering, framed message
composition into a shared wide-string buffer, dispatch to console and/or
file targets, and a token-based file read-back routine.

The C++ code is shallowly embedded: the static data members of class `Log`
become the fields of `LogState`; the observable outside world (standard
output and the file system) becomes `World`; `writeLog`, `outputToTarget`,
`getLogFromFile`, `Init` and `Instance` become pure functions over these.
Wide strings are modelled as Lean `String`s (sequences of characters);
the current time, process id and thread id are explicit parameters.
-/

namespace CppLog

/-- Log levels, `enum LOGLEVEL`, log.hpp lines 88-95. -/
inductive LOGLEVEL where
  | NONE
  | ERROR
  | WARNING
  | DEBUG
  | INFO
deriving DecidableEq

/-- Numeric value of a `LOGLEVEL` (C++ enum values 0..4). -/
def LOGLEVEL.toNat : LOGLEVEL → Nat
  | .NONE => 0
  | .ERROR => 1
  | .WARNING => 2
  | .DEBUG => 3
  | .INFO => 4

/-- Output targets, `enum LOGTARGET`, log.hpp lines 97-103 (a bitmask). -/
inductive LOGTARGET where
  | NONE
  | CONSOLE
  | FILE
  | CONSOLE_AND_FILE
deriving DecidableEq

/-- Numeric value of a `LOGTARGET` (C++ enum values 0b00, 0b01, 0b10, 0b11). -/
def LOGTARGET.toNat : LOGTARGET → Nat
  | .NONE => 0
  | .CONSOLE => 1
  | .FILE => 2
  | .CONSOLE_AND_FILE => 3

/-- The display-name map `LOGLEVEL_WSTRING`, log.hpp lines 139-145.
`LOG_LEVEL_NONE` has no entry, so `unordered_map::at` on it throws
`std::out_of_range`; this is modelled by `none`. -/
def LOGLEVEL_WSTRING : LOGLEVEL → Option String
  | .NONE => none
  | .ERROR => some "ERROR"
  | .WARNING => some "WARNING"
  | .DEBUG => some "DEBUG"
  | .INFO => some "INFO"

/-- The observable outside world: everything written to standard output so
far (concatenated), and the file system as an association list from path
to current file contents; a path absent from the list is a file that does
not exist. -/
structure World where
  console : String
  files : List (String × String)
deriving DecidableEq

/-- Look a path up in the file system. -/
def lookupFile : List (String × String) → String → Option String
  | [], _ => none
  | (p, c) :: rest, q => if p = q then some c else lookupFile rest q

/-- Store contents for a path, creating the entry if absent. -/
def writeFileEntry : List (String × String) → String → String → List (String × String)
  | [], p, c => [(p, c)]
  | (q, d) :: rest, p, c => if q = p then (q, c) :: rest else (q, d) :: writeFileEntry rest p c

/-- Appending via `std::wofstream` opened with `std::ios::app` (log.cpp line 174): the
file is created if missing and the new text goes after any prior contents. -/
def appendFile (fs : List (String × String)) (p : String) (s : String) : List (String × String) :=
  writeFileEntry fs p ((lookupFile fs p).getD "" ++ s)

/-- The static data members of class `Log` (log.cpp lines 57-63), plus two
ghost fields used only to observe behaviour: `nextId` allocates pointer
identities for `new Log()`, and `initRuns` counts executions of `Init`.
`onceDone` models `std::once_flag m_ResourceFlag`; `locale` models the
process locale set by `setlocale` in `Init`. -/
structure LogState where
  log : Option Nat
  buffer : String
  file : String
  level : LOGLEVEL
  target : LOGTARGET
  onceDone : Bool
  locale : String
  nextId : Nat
  initRuns : Nat
deriving DecidableEq

/-- Setter `Log::setLogLevel`, log.hpp line 212. -/
def setLogLevel (s : LogState) (lv : LOGLEVEL) : LogState := { s with level := lv }

/-- Setter `Log::setLogTarget`, log.hpp line 216. -/
def setLogTarget (s : LogState) (tg : LOGTARGET) : LogState := { s with target := tg }

/-- Setter `Log::setLogFile`, log.hpp line 220. -/
def setLogFile (s : LogState) (path : String) : LogState := { s with file := path }

/-- The static initializers, log.cpp lines 57-63.  `m_wstrLogBuffer { 0 }`
list-initializes the buffer as a one-character string holding `L'\0'`. -/
def initialState : LogState where
  log := none
  buffer := String.mk [Char.ofNat 0]
  file := "./Log.txt"
  level := .NONE
  target := .NONE
  onceDone := false
  locale := "C"
  nextId := 0
  initRuns := 0

/-- Function `Log::Init`, log.cpp lines 65-75: allocate the instance if not yet
present, then run the three setters with the given arguments and set the
locale to "chs". -/
def Init (s : LogState) (lv : LOGLEVEL) (tg : LOGTARGET) (path : String) : LogState :=
  let s1 := if s.log = none then { s with log := some s.nextId, nextId := s.nextId + 1 } else s
  let s2 := setLogFile (setLogTarget (setLogLevel s1 lv) tg) path
  { s2 with locale := "chs", initRuns := s2.initRuns + 1 }

/-- Accessor `Log::Instance`, log.hpp lines 203-208: `std::call_once` runs `Init`
with the current static configuration exactly once (modelled by the
`onceDone` flag), then the shared pointer `m_Log` is returned. -/
def Instance (s : LogState) : LogState × Option Nat :=
  let s1 := if s.onceDone then s else { Init s s.level s.target s.file with onceDone := true }
  (s1, s1.log)

/-- The banner marker run `std::wstring(60, L'*')`, log.cpp lines 98, 102, 135, 139. -/
def stars60 : String := String.mk (List.replicate 60 '*')

/-- Truncation of a composed string to a fixed capacity of `n` characters,
as done by `swprintf(buf, n+1, ...)` writing into a fixed-size array. -/
def strTake (s : String) (n : Nat) : String := String.mk (s.toList.take n)

/-- Render a number left-justified in a field of width `w`, as the
`%-<w>d` directives of `swprintf` do. -/
def padNum (n : Nat) (w : Nat) : String :=
  let s := toString n
  s ++ String.mk (List.replicate (w - s.length) ' ')

/-- The call-site metadata block, log.cpp lines 113-121:
`swprintf(logInfo, 100, L" [PID : %-5d] [TID : %-5d] [%-ls] [%-ls : %-4d] ", ...)`.
The 100-wide destination holds at most 99 characters. -/
def metaBlock (pid tid : Nat) (fileName funcName : String) (lineNumber : Nat) : String :=
  strTake (" [PID : " ++ padNum pid 5 ++ "] [TID : " ++ padNum tid 5 ++ "] [" ++
    fileName ++ "] [" ++ funcName ++ " : " ++ padNum lineNumber 4 ++ "] ") 99

/-- The subset of `vswprintf` directives exercised by this repository's
format strings: `%d` consumes the next integer argument, `%%` yields a
literal percent sign, every other character is copied through. -/
def formatMsgAux : List Char → List Int → List Char
  | [], _ => []
  | '%' :: 'd' :: rest, a :: args => (toString a).toList ++ formatMsgAux rest args
  | '%' :: '%' :: rest, args => '%' :: formatMsgAux rest args
  | c :: rest, args => c :: formatMsgAux rest args

/-- The user message, log.cpp lines 123-132: the format string is widened
and rendered with the variadic arguments by `vswprintf` into the
256-wide `logInfo2`, holding at most 255 characters.  (The intermediate
`Format` array is declared with `sizeof _Format` elements — the size of a
pointer — and is overflowed by any longer format; the embedding takes the
full conversion that `MultiByteToWideChar` performs on the NUL-terminated
source.) -/
def userMessage (fmt : String) (args : List Int) : String :=
  strTake (String.mk (formatMsgAux fmt.toList args)) 255

/-- The framed block composed by `Log::writeLog` into the cleared buffer,
log.cpp lines 93-140, append by append in source order. -/
def composeBuffer (name ts : String) (pid tid : Nat) (fileName funcName : String)
    (lineNumber : Nat) (fmt : String) (args : List Int) : String :=
  "" ++ "\n" ++ stars60 ++ " " ++ name ++ " " ++ stars60 ++ "\n" ++
    ts ++ metaBlock pid tid fileName funcName lineNumber ++
    userMessage fmt args ++
    "\n" ++ stars60 ++ " " ++ name ++ " " ++ stars60 ++ "\n"

/-- Dispatcher `Log::outputToTarget`, log.cpp lines 164-178: write the buffer to
standard output when the CONSOLE bit is set in the target mask, and append
it to the configured file when the FILE bit is set. -/
def outputToTarget (s : LogState) (w : World) : World :=
  let w1 := if s.target.toNat &&& LOGTARGET.CONSOLE.toNat ≠ 0 then
    { w with console := w.console ++ s.buffer } else w
  if s.target.toNat &&& LOGTARGET.FILE.toNat ≠ 0 then
    { w1 with files := appendFile w1.files s.file s.buffer } else w1

/-- Result of a `writeLog` call: `threw` records whether the call ended by
propagating the `std::out_of_range` exception that `unordered_map::at`
raises for a level that has no display name. -/
structure WLResult where
  threw : Bool
  state : LogState
  world : World
deriving DecidableEq

/-- Function `Log::writeLog`, log.cpp lines 77-143.  Under the (exclusive) lock:
early return when the level is numerically above the threshold; otherwise
clear the buffer, compose the framed block, and dispatch.  When the level
has no display name, `LOGLEVEL_WSTRING.at` throws at line 100, after the
appends of lines 97-99, so the partial buffer `"\n" ++ stars60 ++ " "`
is left behind and no dispatch happens. -/
def writeLog (s : LogState) (w : World) (lv : LOGLEVEL) (fileName funcName : String)
    (lineNumber : Nat) (fmt : String) (args : List Int) (ts : String)
    (pid tid : Nat) : WLResult :=
  if lv.toNat > s.level.toNat then ⟨false, s, w⟩
  else
    match LOGLEVEL_WSTRING lv with
    | none => ⟨true, { s with buffer := "" ++ "\n" ++ stars60 ++ " " }, w⟩
    | some name =>
      let s1 := { s with buffer := composeBuffer name ts pid tid fileName funcName lineNumber fmt args }
      ⟨false, s1, outputToTarget s1 w⟩

/-- A `writeLog` call observed through a console-only configuration with
threshold `T`: the call emits output exactly when the dispatcher runs and
writes the (always non-empty) composed block to standard output. -/
def emitsAt (lv T : LOGLEVEL) : Prop :=
  (writeLog { initialState with level := T, target := .CONSOLE } ⟨"", []⟩
    lv "file.cpp" "main" 1 "msg" [] "2023-02-09 10:00:00" 1 1).world.console ≠ ""

instance (lv T : LOGLEVEL) : Decidable (emitsAt lv T) := by
  unfold emitsAt
  infer_instance

/-- C1: with threshold `T`, a `writeLog` call at level `L` emits output
exactly when `L ≤ T` numerically — except at `LOG_LEVEL_NONE`, which the
claim itself carves out: a NONE-level call passes the `>` filter but never
emits (its display-name lookup fails before any dispatch). -/
theorem c1_emit_iff_le_threshold (lv T : LOGLEVEL) :
    emitsAt lv T ↔ (lv.toNat ≤ T.toNat ∧ lv ≠ .NONE) := by
  cases lv <;> cases T <;> decide

/-- C4: a call whose level is numerically greater than the configured
threshold returns early: no exception, the state (buffer included) is
returned unchanged and the world is untouched. -/
theorem c4_filtered_call_is_noop (s : LogState) (w : World) (lv : LOGLEVEL)
    (fileName funcName : String) (lineNumber : Nat) (fmt : String) (args : List Int)
    (ts : String) (pid tid : Nat) (h : lv.toNat > s.level.toNat) :
    writeLog s w lv fileName funcName lineNumber fmt args ts pid tid = ⟨false, s, w⟩ := by
  unfold writeLog
  rw [if_pos h]

/-- Witness for C4 at a concrete input: an INFO call against an ERROR
threshold is a no-op. -/
theorem c4_filtered_call_is_noop_witness :
    LOGLEVEL.toNat .INFO > LOGLEVEL.toNat (setLogLevel initialState .ERROR).level ∧
    writeLog (setLogLevel initialState .ERROR) ⟨"", []⟩ .INFO "a.cpp" "f" 3 "x" [] "t" 1 2 =
      ⟨false, setLogLevel initialState .ERROR, ⟨"", []⟩⟩ :=
  ⟨by decide, c4_filtered_call_is_noop (setLogLevel initialState .ERROR) ⟨"", []⟩ .INFO
    "a.cpp" "f" 3 "x" [] "t" 1 2 (by decide)⟩

/-- The block layout claimed by C2, following the spec's words: an opening
banner line, a newline, the timestamp, the metadata block, the user
message, a trailing newline, and a closing banner identical in shape to
the opening one — with nothing before the opening banner.  (Comparison
definition for the refinement check; the source-derived layout is
`composeBuffer`.) -/
def claimedBlockLayout (name ts metaB msg : String) : String :=
  stars60 ++ " " ++ name ++ " " ++ stars60 ++ "\n" ++ ts ++ metaB ++ msg ++ "\n" ++
    (stars60 ++ " " ++ name ++ " " ++ stars60)

/-- C2 counterexample: at a concrete non-filtered call the buffer does not
follow the claimed layout — its first character is a newline, which the
code appends (log.cpp line 97) before the opening banner. -/
theorem c2_buffer_layout_counterexample :
    ((writeLog { initialState with level := .INFO } ⟨"", []⟩ .INFO "a.cpp" "main" 7
        "hi" [] "2023-02-09 10:00:00" 1 2).state.buffer).toList.take 1 = ['\n'] ∧
    (writeLog { initialState with level := .INFO } ⟨"", []⟩ .INFO "a.cpp" "main" 7
        "hi" [] "2023-02-09 10:00:00" 1 2).state.buffer ≠
      claimedBlockLayout "INFO" "2023-02-09 10:00:00" (metaBlock 1 2 "a.cpp" "main" 7)
        (userMessage "hi" []) := by
  constructor
  · decide
  · decide

/-- C2 amended: for every non-filtered call with a loggable level, the
buffer is rebuilt from scratch (prior content discarded) and equals the
claimed layout with one extra newline before the opening banner and one
extra newline after the closing banner. -/
theorem c2_buffer_layout_amended (s : LogState) (w : World) (lv : LOGLEVEL) (name : String)
    (fileName funcName : String) (lineNumber : Nat) (fmt : String) (args : List Int)
    (ts : String) (pid tid : Nat)
    (hle : lv.toNat ≤ s.level.toNat) (hname : LOGLEVEL_WSTRING lv = some name) :
    (writeLog s w lv fileName funcName lineNumber fmt args ts pid tid).state.buffer =
      "\n" ++ claimedBlockLayout name ts (metaBlock pid tid fileName funcName lineNumber)
        (userMessage fmt args) ++ "\n" := by
  unfold writeLog
  rw [if_neg (by omega), hname]
  unfold composeBuffer claimedBlockLayout
  simp [String.append_assoc]

/-- Witness for C2's amended theorem at a concrete input. -/
theorem c2_buffer_layout_amended_witness :
    LOGLEVEL.toNat .ERROR ≤ LOGLEVEL.toNat ({ initialState with level := .WARNING } : LogState).level ∧
    LOGLEVEL_WSTRING .ERROR = some "ERROR" ∧
    (writeLog { initialState with level := .WARNING } ⟨"", []⟩ .ERROR "b.cpp" "g" 9
        "ok" [] "2023-02-09 11:00:00" 3 4).state.buffer =
      "\n" ++ claimedBlockLayout "ERROR" "2023-02-09 11:00:00" (metaBlock 3 4 "b.cpp" "g" 9)
        (userMessage "ok" []) ++ "\n" :=
  ⟨by decide, rfl, c2_buffer_layout_amended { initialState with level := .WARNING } ⟨"", []⟩
    .ERROR "ERROR" "b.cpp" "g" 9 "ok" [] "2023-02-09 11:00:00" 3 4 (by decide) rfl⟩

theorem lookup_writeFileEntry_self (fs : List (String × String)) (p c : String) :
    lookupFile (writeFileEntry fs p c) p = some c := by
  induction fs with
  | nil => simp [writeFileEntry, lookupFile]
  | cons hd tl ih =>
    obtain ⟨q, d⟩ := hd
    by_cases h : q = p
    · simp [writeFileEntry, h, lookupFile]
    · simp [writeFileEntry, h, lookupFile, ih]

theorem lookup_writeFileEntry_other (fs : List (String × String)) (p c q : String)
    (h : q ≠ p) : lookupFile (writeFileEntry fs p c) q = lookupFile fs q := by
  have hpq : p ≠ q := fun hh => h hh.symm
  induction fs with
  | nil => simp [writeFileEntry, lookupFile, hpq]
  | cons hd tl ih =>
    obtain ⟨r, d⟩ := hd
    by_cases hr : r = p
    · subst hr
      simp [writeFileEntry, lookupFile, hpq]
    · simp [writeFileEntry, hr, lookupFile, ih]

/-- C3: for every state and world, the dispatcher writes the buffer to the
console exactly when the CONSOLE bit of the target mask is set, appends it
to the configured file exactly when the FILE bit is set (leaving every
other file untouched), and is a no-op when no bit is set; with both bits
set, both writes of the same buffer occur. -/
theorem c3_dispatch_by_target_bits (s : LogState) (w : World) :
    (s.target.toNat &&& LOGTARGET.CONSOLE.toNat ≠ 0 →
      (outputToTarget s w).console = w.console ++ s.buffer) ∧
    (s.target.toNat &&& LOGTARGET.CONSOLE.toNat = 0 →
      (outputToTarget s w).console = w.console) ∧
    (s.target.toNat &&& LOGTARGET.FILE.toNat ≠ 0 →
      lookupFile (outputToTarget s w).files s.file =
        some ((lookupFile w.files s.file).getD "" ++ s.buffer)) ∧
    (s.target.toNat &&& LOGTARGET.FILE.toNat = 0 →
      (outputToTarget s w).files = w.files) ∧
    (∀ p, p ≠ s.file → lookupFile (outputToTarget s w).files p = lookupFile w.files p) ∧
    (s.target = .NONE → outputToTarget s w = w) := by
  cases ht : s.target <;>
    simp [outputToTarget, ht, LOGTARGET.toNat, appendFile, lookup_writeFileEntry_self] <;>
    intro p hp <;>
    exact lookup_writeFileEntry_other w.files s.file _ p hp

/-- Witness for C3 at a concrete input: with target FILE, the buffer lands
appended in the configured file. -/
theorem c3_dispatch_by_target_bits_witness :
    lookupFile (outputToTarget
      { initialState with target := .FILE, buffer := "B", file := "./t.log" } ⟨"", []⟩).files
      "./t.log" =
      some ((lookupFile ([] : List (String × String)) "./t.log").getD "" ++ "B") :=
  (c3_dispatch_by_target_bits
    { initialState with target := .FILE, buffer := "B", file := "./t.log" } ⟨"", []⟩).2.2.1
    (by decide)

/-- Predicate `startsWithSub n h`: true when `n` occurs at the front of `h`. -/
def startsWithSub : List Char → List Char → Bool
  | [], _ => true
  | _ :: _, [] => false
  | n :: ns, h :: hs => n == h && startsWithSub ns hs

/-- Predicate `containsSub n h`: true when `n` occurs contiguously somewhere in `h`. -/
def containsSub (needle : List Char) : List Char → Bool
  | [] => startsWithSub needle []
  | h :: hs => startsWithSub needle (h :: hs) || containsSub needle hs

/-- The one `writeLog` call of the C5 scenario: target FILE, path
"./t.log", threshold INFO, message "hello %d" with argument 5, against an
empty world. -/
def c5Call : WLResult :=
  writeLog { initialState with level := .INFO, target := .FILE, file := "./t.log" } ⟨"", []⟩
    .INFO "t.cpp" "main" 3 "hello %d" [5] "2023-02-09 10:00:00" 42 7

set_option maxRecDepth 100000 in
/-- C5: the scenario's call does not throw, writes nothing to the console,
and leaves the file system holding exactly one file, "./t.log", whose
contents are exactly the single framed block composed into the buffer,
and that block contains the text "hello 5". -/
theorem c5_file_scenario_hello5 :
    c5Call.threw = false ∧
    c5Call.world.console = "" ∧
    c5Call.world.files = [("./t.log", c5Call.state.buffer)] ∧
    containsSub "hello 5".toList (c5Call.state.buffer).toList = true := by
  refine ⟨rfl, rfl, by decide, by decide⟩

/-- Whitespace, per the classification stream extraction (`operator>>`)
uses to delimit tokens. -/
def wsChar (c : Char) : Bool :=
  c == ' ' || c == '\t' || c == '\n' || c == '\x0b' || c == '\x0c' || c == '\r'

/-- Negation of `wsChar`, the characters an extraction keeps. -/
def notWS (c : Char) : Bool := !(wsChar c)

/-- The read loop of `Log::getLogFromFile`, log.cpp lines 154-159, over the
remaining file contents, fuel-indexed for structural recursion.  Each
iteration runs while the stream is still good: `>>` skips whitespace and
extracts one token; the element is pushed even when the extraction failed
at end-of-file (pushing an empty string); the loop stops once the stream
has hit end-of-file or failed. -/
def readLoopAux : Nat → List Char → List String
  | 0, _ => []
  | fuel + 1, input =>
    if (input.dropWhile wsChar).takeWhile notWS = [] then [""]
    else if (input.dropWhile wsChar).dropWhile notWS = [] then
      [String.mk ((input.dropWhile wsChar).takeWhile notWS)]
    else
      String.mk ((input.dropWhile wsChar).takeWhile notWS) ::
        readLoopAux fuel ((input.dropWhile wsChar).dropWhile notWS)

/-- The elements the read loop pushes for given file contents. -/
def readLoop (c : List Char) : List String := readLoopAux (c.length + 1) c

/-- The plain whitespace-delimited tokens of the contents, in order
(comparison definition for C6's "reads whitespace-delimited tokens"). -/
def wsTokensAux : Nat → List Char → List String
  | 0, _ => []
  | fuel + 1, input =>
    if (input.dropWhile wsChar).takeWhile notWS = [] then []
    else
      String.mk ((input.dropWhile wsChar).takeWhile notWS) ::
        wsTokensAux fuel ((input.dropWhile wsChar).dropWhile notWS)

/-- The whitespace-delimited tokens of the contents. -/
def wsTokens (c : List Char) : List String := wsTokensAux (c.length + 1) c

/-- Last character of a character list, if any. -/
def lastChar : List Char → Option Char
  | [] => none
  | [c] => some c
  | _ :: b :: rest => lastChar (b :: rest)

/-- The spurious element the loop pushes after its final failed
extraction: present exactly when the contents are empty or end in
whitespace (so the last successful extraction left the stream short of
end-of-file). -/
def trailingExtra (c : List Char) : List String :=
  match lastChar c with
  | none => [""]
  | some ch => if wsChar ch then [""] else []

/-- Function `Log::getLogFromFile`, log.cpp lines 145-162: under the shared lock,
open the configured file for reading; return false if that fails,
otherwise push the extracted elements onto the caller's table and return
true. -/
def getLogFromFile (s : LogState) (w : World) (table : List String) : Bool × List String :=
  match lookupFile w.files s.file with
  | none => (false, table)
  | some content => (true, table ++ readLoop content.toList)

theorem wsTokensAux_nil (fuel : Nat) : wsTokensAux fuel [] = [] := by
  cases fuel <;> simp [wsTokensAux]

theorem dropWhile_head_false (p : Char → Bool) (l : List Char) (a : Char) (as : List Char)
    (h : l.dropWhile p = a :: as) : p a = false := by
  induction l with
  | nil => simp [List.dropWhile] at h
  | cons b bs ih =>
    by_cases hb : p b
    · rw [List.dropWhile_cons, if_pos hb] at h
      exact ih h
    · rw [List.dropWhile_cons, if_neg hb] at h
      injection h with h1 _
      rw [← h1]
      simpa using hb

theorem lastChar_cons (a : Char) (l : List Char) (h : l ≠ []) :
    lastChar (a :: l) = lastChar l := by
  cases l with
  | nil => exact absurd rfl h
  | cons b bs => rfl

theorem lastChar_append (a b : List Char) (h : b ≠ []) :
    lastChar (a ++ b) = lastChar b := by
  induction a with
  | nil => rfl
  | cons x xs ih =>
    rw [List.cons_append, lastChar_cons x (xs ++ b) ?_, ih]
    intro hc
    exact h (List.append_eq_nil.mp hc).2

theorem mem_of_lastChar (l : List Char) (ch : Char) (h : lastChar l = some ch) : ch ∈ l := by
  induction l with
  | nil => simp [lastChar] at h
  | cons a as ih =>
    cases as with
    | nil =>
      simp only [lastChar, Option.some.injEq] at h
      simp [h]
    | cons b bs =>
      rw [lastChar_cons a (b :: bs) (by simp)] at h
      exact List.mem_cons_of_mem a (ih h)

theorem lastChar_isSome (l : List Char) (h : l ≠ []) : ∃ ch, lastChar l = some ch := by
  induction l with
  | nil => exact absurd rfl h
  | cons a as ih =>
    cases as with
    | nil => exact ⟨a, rfl⟩
    | cons b bs =>
      obtain ⟨ch, hch⟩ := ih (by simp)
      exact ⟨ch, by rw [lastChar_cons a (b :: bs) (by simp)]; exact hch⟩

/-- The read loop pushes exactly the whitespace-delimited tokens, followed
by one spurious empty string unless the contents end with a non-whitespace
character. -/
theorem readLoopAux_eq_tokens (fuel : Nat) :
    ∀ c : List Char, c.length < fuel →
      readLoopAux fuel c = wsTokensAux fuel c ++ trailingExtra c := by
  induction fuel with
  | zero => intro c h; exact absurd h (Nat.not_lt_zero _)
  | succ n ih =>
    intro c hlen
    by_cases htok : (c.dropWhile wsChar).takeWhile notWS = []
    · -- first extraction fails: the whole contents are whitespace
      have hafter : c.dropWhile wsChar = [] := by
        cases hD : c.dropWhile wsChar with
        | nil => rfl
        | cons a as =>
          have hpa := dropWhile_head_false wsChar c a as hD
          rw [hD, List.takeWhile_cons, notWS, hpa] at htok
          simp at htok
      have hall : ∀ x ∈ c, wsChar x = true := List.dropWhile_eq_nil_iff.mp hafter
      rw [readLoopAux, wsTokensAux, if_pos htok, if_pos htok]
      cases c with
      | nil => simp [trailingExtra, lastChar]
      | cons a as =>
        obtain ⟨ch, hch⟩ := lastChar_isSome (a :: as) (by simp)
        have hws := hall ch (mem_of_lastChar _ _ hch)
        simp [trailingExtra, hch, hws]
    · have hdecomp1 : c.takeWhile wsChar ++ c.dropWhile wsChar = c :=
        List.takeWhile_append_dropWhile wsChar c
      have hdecomp2 : (c.dropWhile wsChar).takeWhile notWS ++
          (c.dropWhile wsChar).dropWhile notWS = c.dropWhile wsChar :=
        List.takeWhile_append_dropWhile notWS (c.dropWhile wsChar)
      have hne : c.dropWhile wsChar ≠ [] := by
        intro h0
        rw [h0] at htok
        exact htok rfl
      by_cases hrest : (c.dropWhile wsChar).dropWhile notWS = []
      · -- one token, consumed to exactly end-of-file: no spurious element
        rw [readLoopAux, wsTokensAux, if_neg htok, if_neg htok, if_pos hrest]
        have hextra : trailingExtra c = [] := by
          have hy : lastChar c = lastChar ((c.dropWhile wsChar).takeWhile notWS) := by
            conv_lhs => rw [← hdecomp1]
            rw [lastChar_append _ _ hne]
            conv_lhs => rw [← hdecomp2, hrest, List.append_nil]
          obtain ⟨ch, hch⟩ := lastChar_isSome ((c.dropWhile wsChar).takeWhile notWS) htok
          have hmem := mem_of_lastChar _ _ hch
          have hnws : notWS ch = true := List.mem_takeWhile_imp hmem
          have hwsf : wsChar ch = false := by
            rw [notWS] at hnws
            simpa using hnws
          rw [trailingExtra, hy, hch]
          simp [hwsf]
        rw [hextra, hrest, wsTokensAux_nil, List.append_nil]
      · -- one token and further contents: recurse on the remainder
        have hlt : ((c.dropWhile wsChar).dropWhile notWS).length < n := by
          have e1 : (c.takeWhile wsChar).length + (c.dropWhile wsChar).length = c.length := by
            rw [← List.length_append, hdecomp1]
          have e2 : ((c.dropWhile wsChar).takeWhile notWS).length +
              ((c.dropWhile wsChar).dropWhile notWS).length = (c.dropWhile wsChar).length := by
            rw [← List.length_append, hdecomp2]
          have htokpos : 0 < ((c.dropWhile wsChar).takeWhile notWS).length :=
            List.length_pos.mpr htok
          omega
        have hlast : lastChar c = lastChar ((c.dropWhile wsChar).dropWhile notWS) := by
          conv_lhs => rw [← hdecomp1]
          rw [lastChar_append _ _ hne]
          conv_lhs => rw [← hdecomp2]
          rw [lastChar_append _ _ hrest]
        have hextra : trailingExtra c = trailingExtra ((c.dropWhile wsChar).dropWhile notWS) := by
          rw [trailingExtra, trailingExtra, hlast]
        rw [readLoopAux, wsTokensAux, if_neg htok, if_neg htok, if_neg hrest,
          ih _ hlt, hextra, List.cons_append]

/-- The loop result, characterized: all whitespace-delimited tokens in
order, plus the spurious final empty element exactly when the contents are
empty or end in whitespace. -/
theorem readLoop_eq_tokens (c : List Char) :
    readLoop c = wsTokens c ++ trailingExtra c :=
  readLoopAux_eq_tokens (c.length + 1) c (Nat.lt_succ_self _)

/-- C6: `getLogFromFile` returns false (leaving the table untouched) when
the configured file cannot be opened; otherwise it returns true and
appends to the table the whitespace-delimited tokens of the file contents,
in order (plus the final empty element that the state-before-extraction
loop pushes, settled by C10). -/
theorem c6_read_file_tokens (s : LogState) (w : World) (table : List String) :
    (lookupFile w.files s.file = none → getLogFromFile s w table = (false, table)) ∧
    (∀ c, lookupFile w.files s.file = some c →
      getLogFromFile s w table =
        (true, table ++ (wsTokens c.toList ++ trailingExtra c.toList))) := by
  constructor
  · intro h
    unfold getLogFromFile
    rw [h]
  · intro c h
    unfold getLogFromFile
    rw [h]
    show (true, table ++ readLoop c.toList) = _
    rw [readLoop_eq_tokens]

/-- Witness for C6 at a concrete input: reading "a b\nc\n" back appends
the three tokens and the spurious final empty string. -/
theorem c6_read_file_tokens_witness :
    getLogFromFile initialState ⟨"", [("./Log.txt", "a b\nc\n")]⟩ ["old"] =
      (true, ["old", "a", "b", "c", ""]) := by
  rw [(c6_read_file_tokens initialState ⟨"", [("./Log.txt", "a b\nc\n")]⟩ ["old"]).2
    "a b\nc\n" (by decide)]
  decide

/-- C10: when the file opens, the caller's table is only appended to, and
contents ending in a whitespace character (every dispatcher-written file,
whose blocks end in a newline) yield exactly the tokens followed by one
extra empty string as the last appended element. -/
theorem c10_append_preserved_trailing_empty (s : LogState) (w : World) (table : List String)
    (c : String) (ch : Char) (hopen : lookupFile w.files s.file = some c)
    (hlast : lastChar c.toList = some ch) (hws : wsChar ch = true) :
    getLogFromFile s w table = (true, table ++ (wsTokens c.toList ++ [""])) := by
  have hex : trailingExtra c.toList = [""] := by
    rw [trailingExtra, hlast]
    simp [hws]
  unfold getLogFromFile
  rw [hopen]
  show (true, table ++ readLoop c.toList) = _
  rw [readLoop_eq_tokens, hex]

/-- Witness for C10 at a concrete input: a file ending in a newline keeps
the table's old elements and ends in one extra empty string. -/
theorem c10_append_preserved_trailing_empty_witness :
    getLogFromFile initialState ⟨"", [("./Log.txt", "hi 7\n")]⟩ ["keep"] =
      (true, ["keep"] ++ (wsTokens "hi 7\n".toList ++ [""])) :=
  c10_append_preserved_trailing_empty initialState ⟨"", [("./Log.txt", "hi 7\n")]⟩ ["keep"]
    "hi 7\n" '\n' (by decide) (by decide) (by decide)

/-- Iterated state of `n` successive `Log::Instance` calls, tracking the evolving static
state. -/
def instanceIter : Nat → LogState → LogState
  | 0, s => s
  | n + 1, s => instanceIter n (Instance s).1

theorem instance_done_fix (s : LogState) (h : s.onceDone = true) : Instance s = (s, s.log) := by
  simp [Instance, h]

theorem instance_once_done (s : LogState) : ((Instance s).1).onceDone = true := by
  by_cases h : s.onceDone = true
  · simp [Instance, h]
  · simp at h
    simp [Instance, h]

theorem instanceIter_fixed (m : Nat) (x : LogState) (hx : x.onceDone = true) :
    instanceIter m x = x := by
  induction m with
  | zero => rfl
  | succ k ihk =>
    have hfst : (Instance x).1 = x := congrArg Prod.fst (instance_done_fix x hx)
    simp only [instanceIter, hfst, ihk]

/-- C8: starting from a not-yet-initialized state, any number `n ≥ 1` of
`Instance` calls runs `Init` exactly once (`initRuns` grows by exactly 1),
leaves the state exactly as after the first call, hands back the same
instance pointer on every call, and never changes the configuration away
from what the first call established. -/
theorem c8_instance_idempotent (s : LogState) (h : s.onceDone = false) (n : Nat)
    (hn : 1 ≤ n) :
    instanceIter n s = (Instance s).1 ∧
    (instanceIter n s).initRuns = s.initRuns + 1 ∧
    (Instance (instanceIter n s)).2 = (Instance s).2 ∧
    (instanceIter n s).level = s.level ∧
    (instanceIter n s).target = s.target ∧
    (instanceIter n s).file = s.file := by
  obtain ⟨m, rfl⟩ : ∃ m, n = m + 1 := ⟨n - 1, by omega⟩
  have hfix : instanceIter (m + 1) s = (Instance s).1 := by
    simp only [instanceIter]
    exact instanceIter_fixed m (Instance s).1 (instance_once_done s)
  refine ⟨hfix, ?_, ?_, ?_, ?_, ?_⟩ <;> rw [hfix]
  · simp only [Instance, h, Init, setLogLevel, setLogTarget, setLogFile]
    simp only [Bool.false_eq_true, if_false]
    split <;> rfl
  · rw [instance_done_fix (Instance s).1 (instance_once_done s)]
    show ((Instance s).1).log = (Instance s).2
    rfl
  · simp [Instance, h, Init, setLogLevel, setLogTarget, setLogFile]
  · simp [Instance, h, Init, setLogLevel, setLogTarget, setLogFile]
  · simp [Instance, h, Init, setLogLevel, setLogTarget, setLogFile]

/-- Witness for C8 at a concrete input: three `Instance` calls from the
static initial state. -/
theorem c8_instance_idempotent_witness :
    initialState.onceDone = false ∧ 1 ≤ 3 ∧
    (instanceIter 3 initialState = (Instance initialState).1 ∧
     (instanceIter 3 initialState).initRuns = initialState.initRuns + 1 ∧
     (Instance (instanceIter 3 initialState)).2 = (Instance initialState).2 ∧
     (instanceIter 3 initialState).level = initialState.level ∧
     (instanceIter 3 initialState).target = initialState.target ∧
     (instanceIter 3 initialState).file = initialState.file) :=
  ⟨rfl, by decide, c8_instance_idempotent initialState rfl 3 (by decide)⟩

/-- C9: lazy initialization through `Instance` passes the current static
defaults, so from the pristine static state the configuration stays at
level `LOG_LEVEL_NONE`, target `LOG_TARGET_NONE` and path "./Log.txt";
after that lazy initialization alone, every `writeLog` call leaves the
world untouched (no target is active, and a NONE-level call aborts before
dispatch); and `writeLog` itself never creates the instance, runs `Init`,
or touches the once-flag — only `Instance` does. -/
theorem c9_lazy_init_defaults :
    (Instance initialState).1.level = .NONE ∧
    (Instance initialState).1.target = .NONE ∧
    (Instance initialState).1.file = "./Log.txt" ∧
    (∀ w lv fileName funcName lineNumber fmt args ts pid tid,
      (writeLog (Instance initialState).1 w lv fileName funcName lineNumber fmt args
        ts pid tid).world = w) ∧
    (∀ s w lv fileName funcName lineNumber fmt args ts pid tid,
      (writeLog s w lv fileName funcName lineNumber fmt args ts pid tid).state.onceDone =
          s.onceDone ∧
      (writeLog s w lv fileName funcName lineNumber fmt args ts pid tid).state.log = s.log ∧
      (writeLog s w lv fileName funcName lineNumber fmt args ts pid tid).state.initRuns =
          s.initRuns) := by
  refine ⟨by decide, by decide, by decide, ?_, ?_⟩
  · intro w lv fileName funcName lineNumber fmt args ts pid tid
    have hs : ((Instance initialState).1).level = .NONE := by decide
    cases lv <;> simp [writeLog, hs, LOGLEVEL.toNat, LOGLEVEL_WSTRING]
  · intro s w lv fileName funcName lineNumber fmt args ts pid tid
    by_cases hf : lv.toNat > s.level.toNat
    · simp [writeLog, hf]
    · cases hn : LOGLEVEL_WSTRING lv <;> simp [writeLog, hf, hn]

end CppLog
